import Mathlib

/-!
Verification of the adaptive caching subsystem of the SleeperMCP repository.

The development shallowly embeds the TypeScript sources:
* `SmartTTLManager` (src/unnamed/part_008, cache/smart-ttl.ts),
* `CompressionManager` (src/src/cache/manager.ts, compression part),
* `EnhancedCacheService` (src/unnamed/part_009, cache/enhanced-service.ts),
* `CacheInvalidator.invalidateByPattern` (src/unnamed/part_007, cache/invalidation.ts),
* `CacheManager.getHealthStatus` (src/src/cache/manager.ts).

External platform libraries (JSON, zlib/gzip, NodeCache, ioredis) are not part
of the repository; they are modelled by parameters (`Codec`, `EntryCodec`,
association-list stores, a per-call connection outcome `Conn`) carrying exactly
the contracts the code relies on.  JavaScript numbers are modelled as exact
arithmetic over `Nat`/`Int`; thrown exceptions are modelled with `Except`.
-/

set_option autoImplicit false

namespace SleeperSpec

/-! ## TTL policy engine (SmartTTLManager, cache/smart-ttl.ts) -/

/-- TTLStrategy record from smart-ttl.ts. -/
structure TTLStrategy where
  baseTTL : Nat
  gameTimeTTL : Nat
  offSeasonTTL : Nat
  waiverTimeTTL : Option Nat
  deriving Repr, DecidableEq

/-- The locally cached NFL-state snapshot (`this.nflState`); only the fields
read by the TTL computation are kept. -/
structure NFLState where
  week : Nat
  season_type : String
  deriving Repr, DecidableEq

/-- The wall-clock fields read via `new Date()`: `getDay()` and `getHours()`. -/
structure Clock where
  dayOfWeek : Nat
  hour : Nat
  deriving Repr, DecidableEq

/-- CacheContext from smart-ttl.ts restricted to the fields the TTL
computation reads (`dataType` and `week`; `leagueId`, `season` and
`currentTime` are never consulted). -/
structure CacheContext where
  dataType : String
  week : Option Nat
  deriving Repr, DecidableEq

/-- JavaScript truthiness of an optional number (`strategy.waiverTimeTTL`,
`result.compressedSize`): present and non-zero. -/
def optTruthy : Option Nat → Bool
  | some n => n != 0
  | none => false

/-- The `strategies` table of `SmartTTLManager`, values copied from the
constructor literal. -/
def strategies : String → Option TTLStrategy
  | "user" => some ⟨24 * 60 * 60, 24 * 60 * 60, 7 * 24 * 60 * 60, none⟩
  | "league" => some ⟨12 * 60 * 60, 12 * 60 * 60, 24 * 60 * 60, none⟩
  | "roster" => some ⟨60 * 60, 60 * 60, 24 * 60 * 60, some (5 * 60)⟩
  | "matchup" => some ⟨60 * 60, 60, 24 * 60 * 60, none⟩
  | "transaction" => some ⟨30 * 60, 10 * 60, 12 * 60 * 60, none⟩
  | "player" => some ⟨6 * 60 * 60, 60 * 60, 7 * 24 * 60 * 60, none⟩
  | "trending" => some ⟨15 * 60, 5 * 60, 60 * 60, none⟩
  | "draft" => some ⟨24 * 60 * 60, 24 * 60 * 60, 7 * 24 * 60 * 60, none⟩
  | "nfl_state" => some ⟨5 * 60, 60, 60 * 60, none⟩
  | _ => none

/-- The test `!state || state.season_type === 'pre'` in `getOptimalTTL`. -/
def isOffSeason : Option NFLState → Bool
  | none => true
  | some s => s.season_type == "pre"

/-- `isGameTime` from smart-ttl.ts; the snapshot is passed explicitly. -/
def isGameTime (state : Option NFLState) (clock : Clock) : Bool :=
  match state with
  | none => false
  | some s =>
    if s.season_type == "pre" then false
    else if s.season_type == "regular" || s.season_type == "post" then
      (clock.dayOfWeek == 4 && decide (20 ≤ clock.hour) && decide (clock.hour ≤ 23)) ||
      (clock.dayOfWeek == 0 && decide (13 ≤ clock.hour) && decide (clock.hour ≤ 23)) ||
      (clock.dayOfWeek == 1 && decide (20 ≤ clock.hour) && decide (clock.hour ≤ 23))
    else false

/-- `isWaiverTime` from smart-ttl.ts. -/
def isWaiverTime (clock : Clock) : Bool :=
  (clock.dayOfWeek == 2 && decide (22 ≤ clock.hour)) ||
  (clock.dayOfWeek == 3 && decide (clock.hour ≤ 6))

/-- `getOptimalTTL` from smart-ttl.ts.  `state` is the cached snapshot
returned by `getNFLState()`. -/
def getOptimalTTL (state : Option NFLState) (clock : Clock) (context : CacheContext) : Nat :=
  match strategies context.dataType with
  | none => 300
  | some strategy =>
    if isOffSeason state then strategy.offSeasonTTL
    else if context.dataType == "roster" && optTruthy strategy.waiverTimeTTL
        && isWaiverTime clock then
      strategy.waiverTimeTTL.getD 0
    else if isGameTime state clock then strategy.gameTimeTTL
    else strategy.baseTTL

/-- `getContextualTTL` from smart-ttl.ts.  `Math.floor(ttl * 0.5)` is `ttl / 2`
and `Math.floor(ttl * 1.5)` is `ttl * 3 / 2` on natural numbers. -/
def getContextualTTL (state : Option NFLState) (clock : Clock)
    (dataType : String) (week : Option Nat) : Nat :=
  let context : CacheContext := ⟨dataType, week⟩
  let ttl := getOptimalTTL state clock context
  let ttl :=
    match week, state with
    | some w, some s =>
      let ttl := if w = s.week then ttl / 2 else ttl
      if w > s.week then ttl * 3 / 2 else ttl
    | _, _ => ttl
  max ttl 30

/-! ## Compression codec (CompressionManager, cache/manager.ts / compression.ts)

JSON.stringify / JSON.parse and gzip+base64 are platform libraries, modelled
by a `Codec` parameter: `ser`/`deser` is the JSON boundary on cached values,
`size` is `Buffer.byteLength(s, 'utf8')`, and `comp`/`decomp` is the
gzip-then-base64 pipeline, with `none` standing for a thrown error.  The two
round-trip fields state exactly what "serializable value" and a correct
compression library mean. -/

structure Codec (α σ : Type) where
  ser : α → σ
  deser : σ → Option α
  size : σ → Nat
  comp : σ → Option σ
  decomp : σ → Option σ
  deser_ser : ∀ v, deser (ser v) = some v
  decomp_comp : ∀ s t, comp s = some t → decomp t = some s

/-- CompressionOptions from compression.ts. -/
structure CompressionOptions where
  enabled : Bool
  threshold : Nat
  level : Nat
  deriving Repr, DecidableEq

/-- The constructor defaults of `CompressionManager`. -/
def defaultCompressionOptions : CompressionOptions := ⟨true, 1024, 6⟩

/-- Result shape of `CompressionManager.compress`. -/
structure CompressResult (σ : Type) where
  data : σ
  compressed : Bool
  originalSize : Nat
  compressedSize : Option Nat

/-- `shouldCompress` from compression.ts: enabled and serialized size at least
the threshold. -/
def shouldCompress {α σ : Type} (c : Codec α σ) (o : CompressionOptions) (data : σ) : Bool :=
  if !o.enabled then false
  else decide (o.threshold ≤ c.size data)

/-- The two error conditions a read can raise: the typed corrupt-entry error
thrown by `decompress` and a JSON parse error on an uncompressed payload. -/
inductive CacheErr
  | corruptEntry
  | jsonParse
  deriving Repr, DecidableEq

/-- `CompressionManager.compress`.  A gzip failure (`comp` returning `none`)
is caught and the uncompressed serialized form is returned, so the function is
total: it never throws. -/
def compress {α σ : Type} (c : Codec α σ) (o : CompressionOptions) (v : α) :
    CompressResult σ :=
  let jsonString := c.ser v
  let originalSize := c.size jsonString
  if !shouldCompress c o jsonString then
    ⟨jsonString, false, originalSize, none⟩
  else
    match c.comp jsonString with
    | some buf => ⟨buf, true, originalSize, some (c.size buf)⟩
    | none => ⟨jsonString, false, originalSize, none⟩

/-- `CompressionManager.decompress`.  On an uncompressed payload a JSON parse
failure propagates as-is; on a compressed payload any failure inside the try
block is rethrown as the typed corrupt-entry error. -/
def decompress {α σ : Type} (c : Codec α σ) (data : σ) (wasCompressed : Bool) :
    Except CacheErr α :=
  if !wasCompressed then
    match c.deser data with
    | some v => .ok v
    | none => .error .jsonParse
  else
    match c.decomp data with
    | none => .error .corruptEntry
    | some s =>
      match c.deser s with
      | some v => .ok v
      | none => .error .corruptEntry

/-! ## Tiered cache store (EnhancedCacheService, cache/enhanced-service.ts) -/

/-- Metadata part of a CacheEntry, as built by `createCacheMetadata`. -/
structure CacheMetadata where
  compressed : Bool
  originalSize : Nat
  compressedSize : Option Nat
  timestamp : Nat
  version : String
  deriving Repr, DecidableEq

/-- CacheEntry from enhanced-service.ts; `σ` is the payload type produced by
the codec. -/
structure CacheEntry (σ : Type) where
  data : σ
  metadata : CacheMetadata

/-- `CompressionManager.createCacheMetadata`. -/
def createCacheMetadata (compressed : Bool) (originalSize : Nat)
    (compressedSize : Option Nat) (now : Nat) : CacheMetadata :=
  ⟨compressed, originalSize, compressedSize, now, "1.0"⟩

/-- JSON.stringify / JSON.parse at the Redis boundary (`serializedEntry`),
modelled as a parameter like `Codec`; `τ` is the stored representation. -/
structure EntryCodec (σ τ : Type) where
  eser : CacheEntry σ → τ
  edeser : τ → Option (CacheEntry σ)
  edeser_eser : ∀ e, edeser (eser e) = some e

/-- The `compressionStats` counters of `EnhancedCacheService`.
`totalSavedBytes` can go negative (base64 can enlarge small payloads), hence
`Int`. -/
structure CompressionStats where
  totalEntries : Nat
  compressedEntries : Nat
  totalSavedBytes : Int
  deriving Repr, DecidableEq

/-- Initial (and post-flush) compression counters. -/
def emptyStats : CompressionStats := ⟨0, 0, 0⟩

/-- The configuration fields the service reads: `config.CACHE_ENABLED` and
`config.CACHE_DEFAULT_TTL`. -/
structure Config where
  cacheEnabled : Bool
  defaultTTL : Nat
  deriving Repr, DecidableEq

/-- Outcome of one interaction with the Redis client: the client is not in
the ready status, or the awaited call succeeds, or it throws. -/
inductive Conn
  | notReady
  | up
  | failing
  deriving Repr, DecidableEq

/-- Mutable state of `EnhancedCacheService` together with the two stores.
`memory` models the NodeCache instance and `redisStore` the Redis database;
both are association lists of key, stored value and absolute expiry time. -/
structure SysState (σ τ : Type) where
  memory : List (String × CacheEntry σ × Nat)
  redisStore : List (String × τ × Nat)
  useRedis : Bool
  stats : CompressionStats

/-- Store read (NodeCache `get` / Redis `GET`): the entry for the key, `none`
if absent or past its expiry time. -/
def storeGet {β : Type} (l : List (String × β × Nat)) (key : String) (now : Nat) : Option β :=
  match l.find? (fun e => e.1 == key) with
  | some e => if now < e.2.2 then some e.2.1 else none
  | none => none

/-- Store write (NodeCache `set` / Redis `SET ... EX`): replaces any previous
entry for the key. -/
def storeSet {β : Type} (l : List (String × β × Nat)) (key : String) (v : β)
    (expiry : Nat) : List (String × β × Nat) :=
  (key, v, expiry) :: l.filter (fun e => e.1 != key)

/-- Store delete (NodeCache `del` / Redis `DEL`). -/
def storeDel {β : Type} (l : List (String × β × Nat)) (key : String) :
    List (String × β × Nat) :=
  l.filter (fun e => e.1 != key)

/-- Keys of the local tier, as returned by `getKeyPatterns().memory`
(`memoryCache.keys()`). -/
def memKeys {σ τ : Type} (st : SysState σ τ) : List String :=
  st.memory.map (fun e => e.1)

/-- The Redis block of `EnhancedCacheService.get` (the inner try/catch).
Returns the value obtained from Redis, if any, and the updated service state:
any error inside the block, including a failed JSON.parse or a decompression
error on the Redis copy, is caught and flips `useRedis` off. -/
def redisGetPhase {α σ τ : Type} (c : Codec α σ) (ec : EntryCodec σ τ)
    (st : SysState σ τ) (conn : Conn) (now : Nat) (key : String) :
    Option α × SysState σ τ :=
  if st.useRedis = true ∧ conn ≠ Conn.notReady then
    match conn with
    | .failing => (none, { st with useRedis := false })
    | _ =>
      match storeGet st.redisStore key now with
      | none => (none, st)
      | some s =>
        match ec.edeser s with
        | none => (none, { st with useRedis := false })
        | some entry =>
          match decompress c entry.data entry.metadata.compressed with
          | .ok v => (some v, st)
          | .error _ => (none, { st with useRedis := false })
  else (none, st)

/-- The memory-fallback block of `EnhancedCacheService.get`: look up the
local tier and decompress.  A decompression error here is not caught locally;
it propagates to the outer catch of `get`. -/
def memPhase {α σ : Type} (c : Codec α σ) (memory : List (String × CacheEntry σ × Nat))
    (now : Nat) (key : String) : Except CacheErr (Option α) :=
  match storeGet memory key now with
  | some entry =>
    match decompress c entry.data entry.metadata.compressed with
    | .ok v => .ok (some v)
    | .error e => .error e
  | none => .ok none

/-- Body of `EnhancedCacheService.get` without its outer catch: the value the
method would return, or the error it would throw. -/
def getAttempt {α σ τ : Type} (cfg : Config) (c : Codec α σ) (ec : EntryCodec σ τ)
    (st : SysState σ τ) (conn : Conn) (now : Nat) (key : String) :
    Except CacheErr (Option α) × SysState σ τ :=
  if !cfg.cacheEnabled then (.ok none, st)
  else
    match redisGetPhase c ec st conn now key with
    | (some v, st2) => (.ok (some v), st2)
    | (none, st2) => (memPhase c st2.memory now key, st2)

/-- `EnhancedCacheService.get`: the outer catch logs any error and returns
null, so the caller always receives a plain value or a miss. -/
def get {α σ τ : Type} (cfg : Config) (c : Codec α σ) (ec : EntryCodec σ τ)
    (st : SysState σ τ) (conn : Conn) (now : Nat) (key : String) :
    Option α × SysState σ τ :=
  match getAttempt cfg c ec st conn now key with
  | (.ok r, st2) => (r, st2)
  | (.error _, st2) => (none, st2)

/-- The `updateCompressionStats` private method. -/
def updateCompressionStats {σ : Type} (s : CompressionStats) (r : CompressResult σ) :
    CompressionStats :=
  let s := { s with totalEntries := s.totalEntries + 1 }
  if r.compressed && optTruthy r.compressedSize then
    { s with
      compressedEntries := s.compressedEntries + 1,
      totalSavedBytes :=
        s.totalSavedBytes + ((r.originalSize : Int) - (r.compressedSize.getD 0 : Int)) }
  else s

/-- `ttl || config.CACHE_DEFAULT_TTL` (a zero or absent TTL falls back to the
configured default). -/
def effectiveTTL (cfg : Config) (ttl : Option Nat) : Nat :=
  match ttl with
  | some t => if t = 0 then cfg.defaultTTL else t
  | none => cfg.defaultTTL

/-- The CacheEntry built by `set` from the compression result. -/
def mkEntry {α σ : Type} (c : Codec α σ) (o : CompressionOptions) (v : α) (now : Nat) :
    CacheEntry σ :=
  let cr := compress c o v
  ⟨cr.data, createCacheMetadata cr.compressed cr.originalSize cr.compressedSize now⟩

/-- `EnhancedCacheService.set`: compress, write Redis best-effort (an error
there is caught and flips `useRedis` off), then unconditionally write the
local tier.  `compress` is total, so the outer catch is never reached and the
method never throws. -/
def set {α σ τ : Type} (cfg : Config) (c : Codec α σ) (ec : EntryCodec σ τ)
    (o : CompressionOptions) (st : SysState σ τ) (conn : Conn) (now : Nat)
    (key : String) (value : α) (ttl : Option Nat) : SysState σ τ :=
  if !cfg.cacheEnabled then st
  else
    let cacheTTL := effectiveTTL cfg ttl
    let entry := mkEntry c o value now
    let st := { st with stats := updateCompressionStats st.stats (compress c o value) }
    let st :=
      if st.useRedis = true ∧ conn ≠ Conn.notReady then
        match conn with
        | .failing => { st with useRedis := false }
        | _ =>
          { st with redisStore := storeSet st.redisStore key (ec.eser entry) (now + cacheTTL) }
      else st
    { st with memory := storeSet st.memory key entry (now + cacheTTL) }

/-- `EnhancedCacheService.del`. -/
def del {σ τ : Type} (st : SysState σ τ) (conn : Conn) (key : String) : SysState σ τ :=
  let st :=
    if st.useRedis = true ∧ conn ≠ Conn.notReady then
      match conn with
      | .failing => { st with useRedis := false }
      | _ => { st with redisStore := storeDel st.redisStore key }
    else st
  { st with memory := storeDel st.memory key }

/-- `EnhancedCacheService.flush`: best-effort `flushdb`, clear the local tier,
reset the compression counters. -/
def flush {σ τ : Type} (st : SysState σ τ) (conn : Conn) : SysState σ τ :=
  let st :=
    if st.useRedis = true ∧ conn ≠ Conn.notReady then
      match conn with
      | .failing => { st with useRedis := false }
      | _ => { st with redisStore := [] }
    else st
  { st with memory := [], stats := emptyStats }

/-- `EnhancedCacheService.smartSet`: `set` with the TTL computed by
`getContextualTTL`. -/
def smartSet {α σ τ : Type} (cfg : Config) (c : Codec α σ) (ec : EntryCodec σ τ)
    (o : CompressionOptions) (st : SysState σ τ) (conn : Conn)
    (nfl : Option NFLState) (clock : Clock) (now : Nat)
    (key : String) (value : α) (dataType : String) (week : Option Nat) : SysState σ τ :=
  set cfg c ec o st conn now key value (some (getContextualTTL nfl clock dataType week))

/-- `EnhancedCacheService.smartWrap`: return the cached value if present,
otherwise run the producer (its outcome is the `producer` parameter; a
producer failure is rethrown unchanged) and cache the result with the smart
TTL. -/
def smartWrap {α σ τ : Type} (cfg : Config) (c : Codec α σ) (ec : EntryCodec σ τ)
    (o : CompressionOptions) (st : SysState σ τ) (connGet connSet : Conn)
    (nfl : Option NFLState) (clock : Clock) (now : Nat)
    (key : String) (dataType : String) (week : Option Nat)
    (producer : Except Unit α) : Except Unit α × SysState σ τ :=
  match get cfg c ec st connGet now key with
  | (some v, st2) => (.ok v, st2)
  | (none, st2) =>
    match producer with
    | .error e => (.error e, st2)
    | .ok v =>
      (.ok v, set cfg c ec o st2 connSet now key v
        (some (getContextualTTL nfl clock dataType week)))

/-- `CacheService.wrap` (src/src/cache/service.ts), expressed over the same
store operations: cached value if present, else run the producer and `set`
with the explicit TTL. -/
def wrap {α σ τ : Type} (cfg : Config) (c : Codec α σ) (ec : EntryCodec σ τ)
    (o : CompressionOptions) (st : SysState σ τ) (connGet connSet : Conn) (now : Nat)
    (key : String) (producer : Except Unit α) (ttl : Option Nat) :
    Except Unit α × SysState σ τ :=
  match get cfg c ec st connGet now key with
  | (some v, st2) => (.ok v, st2)
  | (none, st2) =>
    match producer with
    | .error e => (.error e, st2)
    | .ok v => (.ok v, set cfg c ec o st2 connSet now key v ttl)

/-- `checkRedisConnection`, run only from the constructor: the one place that
can turn `useRedis` on. -/
def checkRedisConnection {σ τ : Type} (st : SysState σ τ) (conn : Conn) : SysState σ τ :=
  match conn with
  | .up => { st with useRedis := true }
  | _ => { st with useRedis := false }

/-! ## Invalidation engine (CacheInvalidator, cache/invalidation.ts) -/

/-- The key loop of `CacheInvalidator.invalidateByPattern`: iterate over the
snapshot of local-tier keys, delete every key matching the pattern through
`del`, count the deletions.  `conns` supplies the Redis outcome of each
successive `del` call and `p` is `pattern.test`. -/
def invalidateByPatternGo {σ τ : Type} (conns : Nat → Conn) (p : String → Bool) :
    List String → SysState σ τ → Nat → Nat × SysState σ τ
  | [], st, n => (n, st)
  | k :: ks, st, n =>
    if p k then invalidateByPatternGo conns p ks (del st (conns n) k) (n + 1)
    else invalidateByPatternGo conns p ks st n

/-- `CacheInvalidator.invalidateByPattern`: run the loop over
`getKeyPatterns().memory` and return the invalidated count with the final
state. -/
def invalidateByPattern {σ τ : Type} (conns : Nat → Conn) (p : String → Bool)
    (st : SysState σ τ) : Nat × SysState σ τ :=
  invalidateByPatternGo conns p (memKeys st) st 0

/-! ## Cache manager health (CacheManager.getHealthStatus, cache/manager.ts) -/

/-- Overall health values. -/
inductive Health
  | healthy
  | degraded
  | unhealthy
  deriving Repr, DecidableEq

/-- The memory sub-signal. -/
inductive MemStatus
  | ok
  | high
  | critical
  deriving Repr, DecidableEq

/-- The warming sub-signal. -/
inductive WarmStatus
  | active
  | inactive
  | errored
  deriving Repr, DecidableEq

/-- The sub-signals `getHealthStatus` reads from `getStats()`,
`cacheWarmer.getStats()` and `cacheInvalidator.getStats()`. -/
structure HealthInputs where
  useRedis : Bool
  vsize : Nat
  compressionEnabled : Bool
  warmingInProgress : Bool
  hasLastWarmingTime : Bool
  hasLastInvalidationRun : Bool
  deriving Repr, DecidableEq

/-- The hard-coded 100MB memory limit. -/
def memoryLimit : Nat := 100 * 1024 * 1024

/-- Memory classification.  The source compares the percentage
`(vsize / limit) * 100` against 90 and 70; over exact arithmetic that is
`100 * vsize > 90 * limit` and `100 * vsize > 70 * limit`. -/
def memoryStatusOf (vsize : Nat) : MemStatus :=
  if 100 * vsize > 90 * memoryLimit then .critical
  else if 100 * vsize > 70 * memoryLimit then .high
  else .ok

/-- The warming sub-signal: active while in progress, inactive once it has
run, errored if it has never run. -/
def warmingStatusOf (i : HealthInputs) : WarmStatus :=
  if i.warmingInProgress then .active
  else if i.hasLastWarmingTime then .inactive
  else .errored

/-- Result shape of `getHealthStatus` (recommendation strings omitted);
`redisConnected`, `compressionOn` and `invalidationActive` mirror the
`details` fields. -/
structure CacheHealthStatus where
  status : Health
  redisConnected : Bool
  memory : MemStatus
  compressionOn : Bool
  warming : WarmStatus
  invalidationActive : Bool
  deriving Repr, DecidableEq

/-- `CacheManager.getHealthStatus` (the non-throwing branch): unhealthy on
critical memory; degraded on high memory, an unreachable backing store, or a
warming error; healthy otherwise. -/
def getHealthStatus (i : HealthInputs) : CacheHealthStatus :=
  let redisConnected := i.useRedis
  let ms := memoryStatusOf i.vsize
  let ws := warmingStatusOf i
  let status :=
    if ms = MemStatus.critical then Health.unhealthy
    else if ms = MemStatus.high ∨ i.useRedis = false ∨ ws = WarmStatus.errored
        ∨ redisConnected = false then Health.degraded
    else Health.healthy
  ⟨status, redisConnected, ms, i.compressionEnabled, ws, i.hasLastInvalidationRun⟩

/-! ## Concrete instances for witnesses

Values and serialized payloads are byte lists; JSON serialization is the
identity embedding, compression prepends a tag byte, and the Redis entry
representation is the entry itself. -/

/-- A concrete working codec. -/
def listCodec : Codec (List Nat) (List Nat) where
  ser := fun v => v
  deser := fun s => some s
  size := List.length
  comp := fun s => some (0 :: s)
  decomp := fun s => match s with | 0 :: t => some t | _ => none
  deser_ser := fun _ => rfl
  decomp_comp := by
    intro s t h
    injection h with h
    subst h
    rfl

/-- A codec whose compression always fails (models gzip resource
exhaustion). -/
def failCodec : Codec (List Nat) (List Nat) :=
  { listCodec with
    comp := fun _ => none
    decomp := fun _ => none
    decomp_comp := by intro s t h; exact Option.noConfusion h }

/-- A concrete entry codec. -/
def listEntryCodec : EntryCodec (List Nat) (CacheEntry (List Nat)) where
  eser := fun e => e
  edeser := fun e => some e
  edeser_eser := fun _ => rfl

/-- A concrete configuration with caching enabled. -/
def cfgW : Config := ⟨true, 300⟩

/-- A fresh state with Redis observed reachable. -/
def stRedisOn : SysState (List Nat) (CacheEntry (List Nat)) := ⟨[], [], true, emptyStats⟩

/-- A value larger than the 1024-byte compression threshold. -/
def bigValue : List Nat := List.replicate 1024 7

/-- A stored entry marked compressed whose payload does not decompress (the
tag byte is wrong). -/
def corruptEntryW : CacheEntry (List Nat) := ⟨[5], ⟨true, 10, some 1, 0, "1.0"⟩⟩

/-- A state whose local tier holds the corrupt entry under key "k". -/
def corruptState : SysState (List Nat) (CacheEntry (List Nat)) :=
  ⟨[("k", corruptEntryW, 100)], [], false, emptyStats⟩

/-- Health inputs with everything ideal except compression, which is
disabled. -/
def healthInputW : HealthInputs := ⟨true, 0, false, false, true, true⟩

/-! ## Theorems -/

/-- Helper: decompressing what `compress` produced recovers the value, on
every branch (below threshold, compressed, compression failed). -/
theorem decompress_compress {α σ : Type} (c : Codec α σ) (o : CompressionOptions) (v : α) :
    decompress c (compress c o v).data (compress c o v).compressed = .ok v := by
  unfold compress decompress
  cases h : shouldCompress c o (c.ser v) with
  | false => simp [h, c.deser_ser]
  | true =>
    cases hc : c.comp (c.ser v) with
    | none => simp [h, hc, c.deser_ser]
    | some t => simp [h, hc, c.decomp_comp _ _ hc, c.deser_ser]

/-- C4: for every data category (configured or unknown) and every context,
`getContextualTTL` returns a duration of at least 30 seconds. -/
theorem contextual_ttl_floor (state : Option NFLState) (clock : Clock)
    (dataType : String) (week : Option Nat) :
    30 ≤ getContextualTTL state clock dataType week := by
  unfold getContextualTTL
  exact Nat.le_max_right _ 30

/-- C5: whenever the cached league-phase snapshot reports the pre-season
phase, `getOptimalTTL` returns exactly the strategy's `offSeasonTTL` for the
context's data category, whatever the clock says about game-time or waiver
windows. -/
theorem off_season_dominance (s : NFLState) (clock : Clock) (context : CacheContext)
    (strategy : TTLStrategy)
    (hpre : s.season_type = "pre")
    (hstrat : strategies context.dataType = some strategy) :
    getOptimalTTL (some s) clock context = strategy.offSeasonTTL := by
  unfold getOptimalTTL
  rw [hstrat]
  simp [isOffSeason, hpre]

/-- Witness for C5: the "matchup" category during a Sunday-afternoon
game-time clock still gets the off-season TTL of 24 hours when the snapshot
says pre-season. -/
theorem off_season_dominance_witness :
    (⟨3, "pre"⟩ : NFLState).season_type = "pre" ∧
    strategies "matchup" = some ⟨60 * 60, 60, 24 * 60 * 60, none⟩ ∧
    getOptimalTTL (some ⟨3, "pre"⟩) ⟨0, 14⟩ ⟨"matchup", none⟩ = 24 * 60 * 60 :=
  ⟨rfl, rfl, off_season_dominance ⟨3, "pre"⟩ ⟨0, 14⟩ ⟨"matchup", none⟩
    ⟨60 * 60, 60, 24 * 60 * 60, none⟩ rfl rfl⟩

/-- C6: `compress` never throws; when the compression library fails it
returns the uncompressed serialized form with the original size and
`compressed = false`.  (`compress` is a total function, so every call yields
a well-formed result; this theorem pins down the failure branch.) -/
theorem compress_failure_fallback {α σ : Type} (c : Codec α σ) (o : CompressionOptions)
    (v : α) (hfail : c.comp (c.ser v) = none) :
    compress c o v = ⟨c.ser v, false, c.size (c.ser v), none⟩ := by
  unfold compress
  cases h : shouldCompress c o (c.ser v) <;> simp [hfail]

/-- Witness for C6: a codec whose gzip always fails, applied to a value above
the 1024-byte threshold, still yields the uncompressed well-formed result. -/
theorem compress_failure_fallback_witness :
    failCodec.comp (failCodec.ser bigValue) = none ∧
    compress failCodec defaultCompressionOptions bigValue =
      ⟨failCodec.ser bigValue, false, failCodec.size (failCodec.ser bigValue), none⟩ :=
  ⟨rfl, compress_failure_fallback failCodec defaultCompressionOptions bigValue rfl⟩

/-- C9 counterexample: for an unknown data category with a week context equal
to the snapshot's current week, `getContextualTTL` returns 150, not the fixed
300-second default the claim promises regardless of context. -/
theorem unknown_category_counterexample :
    getContextualTTL (some ⟨5, "regular"⟩) ⟨5, 12⟩ "unknown_type" (some 5) = 150 ∧
    getContextualTTL (some ⟨5, "regular"⟩) ⟨5, 12⟩ "unknown_type" (some 5) ≠ 300 := by
  constructor
  · rfl
  · decide

/-- C9 amended: an unknown data category makes `getOptimalTTL` return the
fixed 300-second default, but `getContextualTTL` then applies the week-based
adjustment to that default, returning 150 for the current week and 450 for a
future week (300 otherwise). -/
theorem unknown_category_ttl (state : Option NFLState) (clock : Clock)
    (dataType : String) (week : Option Nat)
    (h : strategies dataType = none) :
    getOptimalTTL state clock ⟨dataType, week⟩ = 300 ∧
    getContextualTTL state clock dataType week =
      (match week, state with
       | some w, some s => if w = s.week then 150 else if w > s.week then 450 else 300
       | _, _ => 300) := by
  have h1 : getOptimalTTL state clock ⟨dataType, week⟩ = 300 := by
    unfold getOptimalTTL
    rw [h]
  refine ⟨h1, ?_⟩
  cases week with
  | none => simp [getContextualTTL, h1]
  | some w =>
    cases state with
    | none => simp [getContextualTTL, h1]
    | some s =>
      simp only [getContextualTTL, h1]
      split_ifs <;> omega

/-- Witness for C9's amended claim: the data category "unknown_type" has no
strategy; with no week context the contextual TTL is exactly 300. -/
theorem unknown_category_ttl_witness :
    strategies "unknown_type" = none ∧
    getOptimalTTL (some ⟨5, "regular"⟩) ⟨5, 12⟩ ⟨"unknown_type", none⟩ = 300 ∧
    getContextualTTL (some ⟨5, "regular"⟩) ⟨5, 12⟩ "unknown_type" none = 300 := by
  refine ⟨rfl, ?_⟩
  have h2 := unknown_category_ttl (some ⟨5, "regular"⟩) ⟨5, 12⟩ "unknown_type" none rfl
  exact h2

/-- Helper: `del` always removes the key from the local tier, whatever the
Redis branch does. -/
theorem del_memory {σ τ : Type} (st : SysState σ τ) (conn : Conn) (key : String) :
    (del st conn key).memory = storeDel st.memory key := by
  unfold del
  split
  · cases conn <;> rfl
  · rfl

/-- Helper: the invalidation loop counts exactly the matching keys of its
snapshot. -/
theorem invalidateGo_count {σ τ : Type} (conns : Nat → Conn) (p : String → Bool) :
    ∀ (ks : List String) (st : SysState σ τ) (n : Nat),
      (invalidateByPatternGo conns p ks st n).1 = n + (ks.filter p).length := by
  intro ks
  induction ks with
  | nil => intro st n; simp [invalidateByPatternGo]
  | cons k ks ih =>
    intro st n
    by_cases hk : p k
    · simp [invalidateByPatternGo, hk, ih]
      omega
    · simp [invalidateByPatternGo, hk, ih]

/-- Helper: after the invalidation loop, the local tier holds exactly the
entries whose key does not both match the pattern and occur in the key
snapshot. -/
theorem invalidateGo_memory {σ τ : Type} (conns : Nat → Conn) (p : String → Bool) :
    ∀ (ks : List String) (st : SysState σ τ) (n : Nat),
      (invalidateByPatternGo conns p ks st n).2.memory =
        st.memory.filter (fun e => !(p e.1 && decide (e.1 ∈ ks))) := by
  intro ks
  induction ks with
  | nil => intro st n; simp [invalidateByPatternGo]
  | cons k ks ih =>
    intro st n
    by_cases hk : p k
    · rw [invalidateByPatternGo, if_pos hk, ih, del_memory]
      unfold storeDel
      rw [List.filter_filter]
      apply List.filter_congr
      intro e _
      by_cases h1 : e.1 = k <;> by_cases h2 : p e.1 = true <;>
        by_cases h3 : e.1 ∈ ks <;> simp_all [List.mem_cons]
    · rw [invalidateByPatternGo, if_neg hk, ih]
      apply List.filter_congr
      intro e _
      by_cases h1 : e.1 = k <;> by_cases h2 : p e.1 = true <;>
        by_cases h3 : e.1 ∈ ks <;> simp_all [List.mem_cons]

/-- C7: `invalidateByPattern` returns the number of local-tier keys matching
the pattern, and afterwards the local tier holds exactly the non-matching
entries, each with its stored value and expiry unchanged. -/
theorem invalidate_by_pattern_exact {σ τ : Type} (conns : Nat → Conn)
    (p : String → Bool) (st : SysState σ τ) :
    (invalidateByPattern conns p st).1 = ((memKeys st).filter p).length ∧
    (invalidateByPattern conns p st).2.memory = st.memory.filter (fun e => !p e.1) := by
  constructor
  · simpa using invalidateGo_count conns p (memKeys st) st 0
  · rw [invalidateByPattern, invalidateGo_memory]
    apply List.filter_congr
    intro e he
    have hmem : e.1 ∈ memKeys st := List.mem_map_of_mem (fun x => x.1) he
    simp [hmem]

/-- C8 counterexample: with Redis reachable, no memory pressure and warming
having run, but compression disabled, `getHealthStatus` reports healthy, not
the degraded status the claim promises for any single non-ideal
sub-signal. -/
theorem health_compression_counterexample :
    (getHealthStatus healthInputW).compressionOn = false ∧
    (getHealthStatus healthInputW).status = Health.healthy ∧
    (getHealthStatus healthInputW).status ≠ Health.degraded := by
  refine ⟨rfl, rfl, by decide⟩

/-- C8 amended: the status is unhealthy exactly when memory pressure is
critical (above 90% of the limit); it is degraded exactly when memory is not
critical but memory is above 70%, or the backing store is unreachable, or
warming has never run (and is not in progress); otherwise it is healthy.
Compression being disabled and invalidation inactivity never affect the
status. -/
theorem health_status_characterization (i : HealthInputs) :
    ((getHealthStatus i).status = Health.unhealthy ↔
      100 * i.vsize > 90 * memoryLimit) ∧
    ((getHealthStatus i).status = Health.degraded ↔
      ¬(100 * i.vsize > 90 * memoryLimit) ∧
      (100 * i.vsize > 70 * memoryLimit ∨ i.useRedis = false ∨
        (i.warmingInProgress = false ∧ i.hasLastWarmingTime = false))) ∧
    ((getHealthStatus i).status = Health.healthy ↔
      ¬(100 * i.vsize > 70 * memoryLimit) ∧ i.useRedis = true ∧
      (i.warmingInProgress = true ∨ i.hasLastWarmingTime = true)) := by
  have himp : 90 * memoryLimit < 100 * i.vsize → 70 * memoryLimit < 100 * i.vsize := by
    unfold memoryLimit
    omega
  unfold getHealthStatus memoryStatusOf warmingStatusOf
  by_cases h90 : 90 * memoryLimit < 100 * i.vsize
  · by_cases h70 : 70 * memoryLimit < 100 * i.vsize
    · cases hur : i.useRedis <;> cases hw : i.warmingInProgress <;>
        cases hl : i.hasLastWarmingTime <;> simp [h90, h70, hur, hw, hl]
    · exact absurd (himp h90) h70
  · by_cases h70 : 70 * memoryLimit < 100 * i.vsize <;>
      cases hur : i.useRedis <;> cases hw : i.warmingInProgress <;>
      cases hl : i.hasLastWarmingTime <;> simp [h90, h70, hur, hw, hl]

/-- C3: when the distributed tier raises an error during `get` or `set`, the
operation still completes via the local tier (`get` returns what the local
read yields, a decompression error there being absorbed into a miss; `set`
still writes the local tier and leaves the Redis store untouched), the
reachability flag flips to false, and no Redis error reaches the caller
(both operations return normally). -/
theorem redis_failure_graceful {α σ τ : Type} (cfg : Config) (c : Codec α σ)
    (ec : EntryCodec σ τ) (o : CompressionOptions) (st : SysState σ τ)
    (now : Nat) (key : String) (v : α) (ttl : Option Nat)
    (hen : cfg.cacheEnabled = true)
    (hr : st.useRedis = true) :
    get cfg c ec st .failing now key =
      ((match memPhase c st.memory now key with
        | .ok r => r
        | .error _ => none), { st with useRedis := false }) ∧
    (set cfg c ec o st .failing now key v ttl).useRedis = false ∧
    (set cfg c ec o st .failing now key v ttl).memory =
      storeSet st.memory key (mkEntry c o v now) (now + effectiveTTL cfg ttl) ∧
    (set cfg c ec o st .failing now key v ttl).redisStore = st.redisStore := by
  refine ⟨?_, ?_, ?_, ?_⟩
  · unfold get getAttempt redisGetPhase
    cases hm : memPhase c st.memory now key <;> simp_all
  · simp [set, hen, hr]
  · simp [set, hen, hr]
  · simp [set, hen, hr]

/-- Witness for C3: a concrete `get` and `set` against a reachable-then-
failing Redis still succeed through the local tier and flip the flag. -/
theorem redis_failure_graceful_witness :
    cfgW.cacheEnabled = true ∧ stRedisOn.useRedis = true ∧
    (get cfgW listCodec listEntryCodec stRedisOn .failing 0 "k" =
      ((match memPhase listCodec stRedisOn.memory 0 "k" with
        | .ok r => r
        | .error _ => none), { stRedisOn with useRedis := false }) ∧
     (set cfgW listCodec listEntryCodec defaultCompressionOptions stRedisOn .failing 0 "k"
        [1, 2] (some 60)).useRedis = false ∧
     (set cfgW listCodec listEntryCodec defaultCompressionOptions stRedisOn .failing 0 "k"
        [1, 2] (some 60)).memory =
       storeSet stRedisOn.memory "k" (mkEntry listCodec defaultCompressionOptions [1, 2] 0)
         (0 + effectiveTTL cfgW (some 60)) ∧
     (set cfgW listCodec listEntryCodec defaultCompressionOptions stRedisOn .failing 0 "k"
        [1, 2] (some 60)).redisStore = stRedisOn.redisStore) :=
  ⟨rfl, rfl, redis_failure_graceful cfgW listCodec listEntryCodec defaultCompressionOptions
    stRedisOn 0 "k" [1, 2] (some 60) rfl rfl⟩

/-- Helper: a `get` never turns the reachability flag back on. -/
theorem get_flag_off {α σ τ : Type} (cfg : Config) (c : Codec α σ) (ec : EntryCodec σ τ)
    (st : SysState σ τ) (conn : Conn) (now : Nat) (key : String)
    (h : st.useRedis = false) :
    (get cfg c ec st conn now key).2.useRedis = false := by
  unfold get getAttempt redisGetPhase
  cases hce : cfg.cacheEnabled
  · simp [h]
  · cases hm : memPhase c st.memory now key <;> simp_all

/-- Helper: a `set` never turns the reachability flag back on. -/
theorem set_flag_off {α σ τ : Type} (cfg : Config) (c : Codec α σ) (ec : EntryCodec σ τ)
    (o : CompressionOptions) (st : SysState σ τ) (conn : Conn) (now : Nat)
    (key : String) (v : α) (ttl : Option Nat)
    (h : st.useRedis = false) :
    (set cfg c ec o st conn now key v ttl).useRedis = false := by
  unfold set
  cases hce : cfg.cacheEnabled <;> simp [h]

/-- C10: once the reachability flag is down, no public cache operation (get,
set, del, flush, wrap, smartWrap, smartSet) turns it back on; the distributed
tier is never retried. -/
theorem use_redis_monotone {α σ τ : Type} (cfg : Config) (c : Codec α σ)
    (ec : EntryCodec σ τ) (o : CompressionOptions) (st : SysState σ τ)
    (conn conn2 : Conn) (nfl : Option NFLState) (clock : Clock) (now : Nat)
    (key dataType : String) (week : Option Nat) (v : α) (ttl : Option Nat)
    (producer : Except Unit α)
    (h : st.useRedis = false) :
    (get cfg c ec st conn now key).2.useRedis = false ∧
    (set cfg c ec o st conn now key v ttl).useRedis = false ∧
    (del st conn key).useRedis = false ∧
    (flush st conn).useRedis = false ∧
    (wrap cfg c ec o st conn conn2 now key producer ttl).2.useRedis = false ∧
    (smartWrap cfg c ec o st conn conn2 nfl clock now key dataType week
      producer).2.useRedis = false ∧
    (smartSet cfg c ec o st conn nfl clock now key v dataType week).useRedis = false := by
  have hget := get_flag_off cfg c ec st conn now key h
  refine ⟨hget, set_flag_off cfg c ec o st conn now key v ttl h, ?_, ?_, ?_, ?_, ?_⟩
  · simp [del, h]
  · simp [flush, h]
  · unfold wrap
    cases hg : get cfg c ec st conn now key with
    | mk r st2 =>
      have h2 : st2.useRedis = false := by rw [hg] at hget; exact hget
      cases r with
      | some v2 => simpa using h2
      | none =>
        cases producer with
        | error e => simpa using h2
        | ok v2 => simpa using set_flag_off cfg c ec o st2 conn2 now key v2 ttl h2
  · unfold smartWrap
    cases hg : get cfg c ec st conn now key with
    | mk r st2 =>
      have h2 : st2.useRedis = false := by rw [hg] at hget; exact hget
      cases r with
      | some v2 => simpa using h2
      | none =>
        cases producer with
        | error e => simpa using h2
        | ok v2 =>
          simpa using set_flag_off cfg c ec o st2 conn2 now key v2
            (some (getContextualTTL nfl clock dataType week)) h2
  · exact set_flag_off cfg c ec o st conn now key v
      (some (getContextualTTL nfl clock dataType week)) h

/-- Witness for C10: a concrete operation sequence on a state with the flag
already down observes every operation keeping it down. -/
theorem use_redis_monotone_witness :
    corruptState.useRedis = false ∧
    (get cfgW listCodec listEntryCodec corruptState .up 0 "a").2.useRedis = false ∧
    (set cfgW listCodec listEntryCodec defaultCompressionOptions corruptState .up 0 "a"
      [1] (some 60)).useRedis = false ∧
    (del corruptState .up "a").useRedis = false ∧
    (flush corruptState .up).useRedis = false ∧
    (wrap cfgW listCodec listEntryCodec defaultCompressionOptions corruptState .up .up 0 "a"
      (.ok [1]) (some 60)).2.useRedis = false ∧
    (smartWrap cfgW listCodec listEntryCodec defaultCompressionOptions corruptState .up .up
      none ⟨0, 0⟩ 0 "a" "matchup" none (.ok [1])).2.useRedis = false ∧
    (smartSet cfgW listCodec listEntryCodec defaultCompressionOptions corruptState .up
      none ⟨0, 0⟩ 0 "a" [1] "matchup" none).useRedis = false :=
  ⟨rfl, use_redis_monotone cfgW listCodec listEntryCodec defaultCompressionOptions
    corruptState .up .up none ⟨0, 0⟩ 0 "a" "matchup" none [1] (some 60) (.ok [1]) rfl⟩

/-- C1: for every key, every serializable value (above or below the
compression threshold), and every positive TTL, a `get` performed before the
TTL elapses after `set` returns the value unchanged: the serialize/compress
and decompress/deserialize pipelines round-trip exactly, through either tier
and under any per-call Redis outcome, provided no unexpired stale Redis entry
shadows the key. -/
theorem set_get_roundtrip {α σ τ : Type} (cfg : Config) (c : Codec α σ)
    (ec : EntryCodec σ τ) (o : CompressionOptions) (st : SysState σ τ)
    (connSet connGet : Conn) (now now2 : Nat) (key : String) (v : α) (ttl : Nat)
    (hen : cfg.cacheEnabled = true)
    (httl : 0 < ttl)
    (hfresh : now2 < now + ttl)
    (hstale : storeGet st.redisStore key now2 = (none : Option τ)) :
    (get cfg c ec (set cfg c ec o st connSet now key v (some ttl))
      connGet now2 key).1 = some v := by
  have httl0 : effectiveTTL cfg (some ttl) = ttl := by
    have : ttl ≠ 0 := by omega
    simp [effectiveTTL, this]
  have hdc : decompress c (mkEntry c o v now).data (mkEntry c o v now).metadata.compressed
      = .ok v := decompress_compress c o v
  have hmemget : storeGet (storeSet st.memory key (mkEntry c o v now) (now + ttl)) key now2
      = some (mkEntry c o v now) := by
    simp [storeGet, storeSet, hfresh]
  have hmp : memPhase c (storeSet st.memory key (mkEntry c o v now) (now + ttl)) now2 key
      = .ok (some v) := by
    simp [memPhase, hmemget, hdc]
  have hrg : storeGet (storeSet st.redisStore key (ec.eser (mkEntry c o v now)) (now + ttl))
      key now2 = some (ec.eser (mkEntry c o v now)) := by
    simp [storeGet, storeSet, hfresh]
  cases hur : st.useRedis <;> cases connSet <;> cases connGet <;>
    simp [get, getAttempt, redisGetPhase, set, hen, hur, httl0, hmp, hrg, hstale,
      ec.edeser_eser, hdc]

/-- Witness for C1: a 1024-byte value (above the compression threshold, so
the gzip path fires) written at time 0 with a 60-second TTL is read back
intact at time 10 with Redis up on both calls. -/
theorem set_get_roundtrip_witness :
    cfgW.cacheEnabled = true ∧ (0 : Nat) < 60 ∧ (10 : Nat) < 0 + 60 ∧
    storeGet stRedisOn.redisStore "k" 10 = (none : Option (CacheEntry (List Nat))) ∧
    (get cfgW listCodec listEntryCodec
      (set cfgW listCodec listEntryCodec defaultCompressionOptions stRedisOn .up 0 "k"
        bigValue (some 60)) .up 10 "k").1 = some bigValue :=
  ⟨rfl, by decide, by decide, rfl,
    set_get_roundtrip cfgW listCodec listEntryCodec defaultCompressionOptions stRedisOn
      .up .up 0 10 "k" bigValue 60 rfl (by decide) (by decide) rfl⟩

/-- C2 counterexample: with a corrupt compressed entry stored under "k", the
typed corrupt-entry error is raised internally but `get` returns a plain
null/miss to its caller — the error does not escape, contrary to the
claim. -/
theorem corrupt_entry_counterexample :
    getAttempt cfgW listCodec listEntryCodec corruptState .notReady 0 "k"
      = (.error .corruptEntry, corruptState) ∧
    get cfgW listCodec listEntryCodec corruptState .notReady 0 "k"
      = (none, corruptState) :=
  ⟨rfl, rfl⟩

/-- C2 amended: when the stored local-tier entry for a key is marked
compressed and its payload fails to decompress, the read raises the typed
corrupt-entry error internally (`getAttempt`), but the outer catch of `get`
absorbs it: the caller receives null (a miss), and no error propagates. -/
theorem corrupt_entry_absorbed {α σ τ : Type} (cfg : Config) (c : Codec α σ)
    (ec : EntryCodec σ τ) (st : SysState σ τ) (conn : Conn) (now : Nat) (key : String)
    (entry : CacheEntry σ)
    (hen : cfg.cacheEnabled = true)
    (hnr : st.useRedis = false)
    (hmem : storeGet st.memory key now = some entry)
    (hcomp : entry.metadata.compressed = true)
    (hbad : c.decomp entry.data = none) :
    getAttempt cfg c ec st conn now key = (.error .corruptEntry, st) ∧
    get cfg c ec st conn now key = (none, st) := by
  have h1 : getAttempt cfg c ec st conn now key = (.error .corruptEntry, st) := by
    unfold getAttempt redisGetPhase
    simp [hen, hnr, memPhase, hmem, decompress, hcomp, hbad]
  exact ⟨h1, by unfold get; rw [h1]⟩

/-- Witness for C2's amended claim: the concrete corrupt entry is absorbed
into a miss. -/
theorem corrupt_entry_absorbed_witness :
    cfgW.cacheEnabled = true ∧ corruptState.useRedis = false ∧
    storeGet corruptState.memory "k" 0 = some corruptEntryW ∧
    corruptEntryW.metadata.compressed = true ∧
    listCodec.decomp corruptEntryW.data = none ∧
    (getAttempt cfgW listCodec listEntryCodec corruptState .up 0 "k"
      = (.error .corruptEntry, corruptState) ∧
     get cfgW listCodec listEntryCodec corruptState .up 0 "k" = (none, corruptState)) :=
  ⟨rfl, rfl, rfl, rfl, rfl,
    corrupt_entry_absorbed cfgW listCodec listEntryCodec corruptState .up 0 "k"
      corruptEntryW rfl rfl rfl rfl rfl⟩

end SleeperSpec
